import Mathlib

/-!
Verification development for the notebook translator
(`sphinxcontrib/jupyter/writers/translate_code.py` and
`sphinxcontrib/jupyter/writers/translate_all.py`).

The translator is a stateful depth-first visitor over a document tree.  We
embed its mutable state as an explicit `JTState` record, every visit/depart
handler as a function `JTState → JTState` (or `JTState → Option JTState`
when the Python handler can raise), and a traversal as a fold of handler
invocations (`JTEvent` / `jt_step` / `jt_run`).  Machine strings are Lean
`String`s; all string manipulation is implemented over `String.data`
(lists of characters) so that every definition evaluates by kernel
reduction.  Python operations that raise (`list.pop()` on an empty list,
indexing `[-1]` into an empty sequence) are modelled as `none`.
-/

/-- Python `str.isspace` character class used by `str.strip` and the
regular-expression class `\s` (space, tab, newline, carriage return,
vertical tab, form feed). -/
def pyIsSpace (c : Char) : Bool :=
  c = ' ' || c = '\t' || c = '\n' || c = '\r' || c = '\x0b' || c = '\x0c'

/-- Python `str.strip()`: remove leading and trailing whitespace. -/
def pyStrip (s : String) : String :=
  String.mk (((s.data.dropWhile pyIsSpace).reverse.dropWhile pyIsSpace).reverse)

/-- Python `"".join(fragments)`: concatenation of a list of strings. -/
def pyJoin (l : List String) : String :=
  String.mk (l.map String.data).flatten

/-- Python `sep in s` for a single-character separator `c`. -/
def hasChar (c : Char) (s : String) : Bool :=
  s.data.any (fun x => x = c)

/-- Python `s.split(c)` for a single-character separator, on char lists. -/
def splitOnChar (c : Char) : List Char → List (List Char)
  | [] => [[]]
  | x :: xs =>
    match splitOnChar c xs with
    | [] => [[]]
    | g :: gs => if x = c then [] :: g :: gs else (x :: g) :: gs

/-- A line is blank when `line.strip()` is empty, i.e. all chars are space. -/
def isBlankLine (l : List Char) : Bool :=
  l.all pyIsSpace

/-- `JupyterCodeTranslator.strip_blank_lines_in_end_of_block`
(translate_code.py, lines 218-228): split on newlines, drop trailing
blank lines, rejoin with newlines. -/
def strip_blank_lines_in_end_of_block (line_text : String) : String :=
  String.mk (List.intercalate ['\n']
    (((splitOnChar '\n' line_text.data).reverse.dropWhile isBlankLine).reverse))

/-- `JupyterTranslator.split_uri_id` (translate_all.py, lines 360-362):
`re.search(r"([^\#]*)\#?(.*)", uri).groups()`.  The first group takes
every character before the first `#` (a negated character class, so it
crosses newlines); the optional `#` is consumed; the second group is
`.*`, which stops at the first newline. -/
def split_uri_id (uri : String) : String × String :=
  let before := uri.data.takeWhile (fun c => c ≠ '#')
  if before.length = uri.data.length then
    (uri, "")
  else
    (String.mk before,
     String.mk ((uri.data.drop (before.length + 1)).takeWhile (fun c => c ≠ '\n')))

/-- `JupyterTranslator.add_extension_to_inline_link` (translate_all.py,
lines 364-370): if the URI contains no `.`, splice `ext` in before the
`#` fragment (always emitting a `#`); otherwise return it unchanged. -/
def add_extension_to_inline_link (uri ext : String) : String :=
  if hasChar '.' uri then uri
  else
    let p := split_uri_id uri
    String.mk (p.1.data ++ ext.data ++ '#' :: p.2.data)

/-! ## Cells and output-cell strategies -/

/-- The kind tag of a produced notebook cell (`nbformat` cell_type). -/
inductive CellKind where
  | markdown
  | code
  deriving DecidableEq, Repr

/-- A produced notebook cell: `nbformat.v4.new_markdown_cell` /
`new_code_cell`.  `outputs` models the code cell's attached output
records (markdown cells never receive any). -/
structure NbCell where
  cell_type : CellKind
  source : String
  outputs : List String
  deriving DecidableEq, Repr

/-- `nbformat.v4.new_markdown_cell`. -/
def markdownCell (s : String) : NbCell :=
  { cell_type := CellKind.markdown, source := s, outputs := [] }

/-- `nbformat.v4.new_code_cell`. -/
def codeCell (s : String) : NbCell :=
  { cell_type := CellKind.code, source := s, outputs := [] }

/-- The three output-cell rendering strategies
(`JupyterOutputCellGenerators` in the missing `writers/utils.py`). -/
inductive OutputGen where
  | CODE
  | MARKDOWN
  | CODE_OUTPUT
  deriving DecidableEq, Repr

/-- Modelled from the spec: the Output-Cell Strategy Selector
(`JupyterOutputCellGenerators.GetGeneratorFromClasses`, in the missing
`writers/utils.py`) maps a block's declared classes to one of the three
strategies; an output-capture class selects `CODE_OUTPUT`, anything else
the default `CODE`.  The exact class tags are immaterial to the claims:
every claim either quantifies over the selected strategy or overrides
it. -/
def GetGeneratorFromClasses (classes : List String) : OutputGen :=
  if classes.any (fun c => c = "output") then OutputGen.CODE_OUTPUT
  else OutputGen.CODE

/-- Modelled from the spec: the `MARKDOWN` strategy of the missing
`writers/utils.py` materialises the block text as the body of a markdown
cell (a fenced code rendering); the exact decoration is immaterial to
the claims. -/
def mdCodeBody (text : String) : String :=
  String.mk ("```\n".data ++ text.data ++ "\n```".data)

/-- Modelled from the spec: the Language Normalizer
(`LanguageTranslator.translate` in the missing `writers/utils.py`) maps a
declared language tag through a configurable alias table, returning the
tag unchanged when no alias is configured. -/
def langTranslate (table : List (String × String)) (lang : String) : String :=
  (List.lookup lang table).getD lang

/-! ## Configuration -/

/-- The configuration consumed in `JupyterCodeTranslator.__init__`
(translate_code.py, lines 36-76).  `jupyter_kernels` maps a language to
whether its record carries a `"kernelspec"` entry; `jupyter_headers`
maps a language to its configured header cells (after the
`jupyter_python_autosave` preprocessing); `welcome` is the text of a
resolvable welcome-block template, when one exists; `metadata_text` is
the formatted timestamp+source-path text. -/
structure JTConfig where
  jupyter_kernels : Option (List (String × Bool))
  jupyter_headers : Option (List (String × List NbCell))
  jupyter_write_metadata : Bool
  welcome : Option String
  metadata_text : String
  langTable : List (String × String)
  deriving DecidableEq, Repr

/-- `self.default_lang = "python3"` (translate_code.py, line 31). -/
def default_lang : String := "python3"

/-- The timestamp+source-path metadata cell (translate_code.py,
lines 66-76). -/
def metadataCell (cfg : JTConfig) : NbCell :=
  markdownCell cfg.metadata_text

/-- Cells present in `output["cells"]` at the end of
`JupyterCodeTranslator.__init__`: the welcome block (lines 46-64,
appended first, with trailing blank lines stripped) and then the
metadata cell (lines 66-76). -/
def initial_cells (cfg : JTConfig) : List NbCell :=
  (match cfg.welcome with
   | some t => [markdownCell (strip_blank_lines_in_end_of_block t)]
   | none => []) ++
  (if cfg.jupyter_write_metadata then [metadataCell cfg] else [])

/-! ## Translator state -/

/-- The mutable state of `JupyterTranslator` (translate_all.py, lines
9-33, including the fields inherited from `JupyterCodeTranslator`,
translate_code.py lines 13-81).  `output_cell_type` starts as Python
`None`, hence the `Option`.  `cells` is `self.output["cells"]`;
`warnings` and `errors` record the reporter calls; `kernelspec` models
`self.output.metadata.kernelspec`. -/
structure JTState where
  lang : String
  nodelang : String
  in_code_block : Bool
  output_cell_type : Option OutputGen
  code_lines : List String
  markdown_lines : List String
  indents : List Nat
  section_level : Int
  bullets : List String
  list_item_starts : List Nat
  in_topic : Bool
  reference_text_start : Nat
  in_reference : Bool
  list_level : Int
  in_citation : Bool
  cells : List NbCell
  warnings : List String
  errors : List String
  kernelspec : Option String
  deriving DecidableEq, Repr

/-- The state right after `JupyterTranslator.__init__`: `self.lang` is
Python `None` (modelled as the empty string), all buffers and stacks
empty, `output["cells"]` holding the welcome/metadata cells. -/
def initState (cfg : JTConfig) : JTState where
  lang := ""
  nodelang := ""
  in_code_block := false
  output_cell_type := none
  code_lines := []
  markdown_lines := []
  indents := []
  section_level := 0
  bullets := []
  list_item_starts := []
  in_topic := false
  reference_text_start := 0
  in_reference := false
  list_level := 0
  in_citation := false
  cells := initial_cells cfg
  warnings := []
  errors := []
  kernelspec := none

/-- `self.sep_lines = "  \n"` (translate_all.py, line 13). -/
def sep_lines : String := "  \n"

/-- `self.sep_paras = "\n\n"` (translate_all.py, line 14). -/
def sep_paras : String := "\n\n"

/-! ## Markdown-cell emission -/

/-- `JupyterTranslator.add_markdown_cell` (translate_all.py, lines
346-358): join the markdown buffer, strip trailing blank lines, and only
when the stripped text is non-blank append a markdown cell and reset the
buffer. -/
def add_markdown_cell (st : JTState) : JTState :=
  let line_text := pyJoin st.markdown_lines
  let formatted_line_text := strip_blank_lines_in_end_of_block line_text
  if 0 < (pyStrip formatted_line_text).length then
    { st with cells := st.cells ++ [markdownCell formatted_line_text],
              markdown_lines := [] }
  else st

/-! ## Code-region handlers (translate_code.py) -/

/-- `JupyterCodeTranslator.visit_document` (lines 103-110): give the
document its default language. -/
def visit_document (st : JTState) : JTState :=
  { st with lang := default_lang }

/-- The effective declared language of a literal block
(translate_code.py, line 174): `node.attributes["language"].strip()`
when present, else the current document language. -/
def nodeDeclaredLang (language : Option String) (st : JTState) : String :=
  match language with
  | some l => pyStrip l
  | none => st.lang

/-- A literal-block node: its declared classes and optional declared
language attribute. -/
structure LiteralNode where
  classes : List String
  language : Option String
  deriving DecidableEq, Repr

/-- `JupyterCodeTranslator.visit_literal_block` (lines 172-186): select
the strategy from the classes, resolve and normalise the block language,
enter code mode, reset the code buffer, and force the strategy to
`MARKDOWN` when the resolved language differs from the normalised
document language. -/
def visit_literal_block_code (cfg : JTConfig) (node : LiteralNode) (st : JTState) : JTState :=
  let gen := GetGeneratorFromClasses node.classes
  let nl := langTranslate cfg.langTable (nodeDeclaredLang node.language st)
  let st := { st with output_cell_type := some gen, nodelang := nl,
                      in_code_block := true, code_lines := [] }
  if nl ≠ langTranslate cfg.langTable st.lang then
    { st with output_cell_type := some OutputGen.MARKDOWN }
  else st

/-- `JupyterCodeTranslator.depart_literal_block` (lines 188-213): join
and strip the code buffer; a `CODE_OUTPUT` strategy attaches the text as
an output of the most recent cell when that cell is a code cell with no
output yet (warning and discarding otherwise, and raising `IndexError`
when the cell stream is empty); `CODE` and `MARKDOWN` append a new cell;
`None` (no prior visit) raises. -/
def depart_literal_block (st : JTState) : Option JTState :=
  let formatted := strip_blank_lines_in_end_of_block (pyJoin st.code_lines)
  match st.output_cell_type with
  | none => none
  | some OutputGen.CODE_OUTPUT =>
    match st.cells.getLast? with
    | none => none
    | some c =>
      if c.cell_type ≠ CellKind.code then
        some { st with warnings := st.warnings ++ ["output after non-code cell"],
                       in_code_block := false }
      else if c.outputs ≠ [] then
        some { st with warnings := st.warnings ++ ["multiple output blocks"],
                       in_code_block := false }
      else
        some { st with cells := st.cells.dropLast ++ [{ c with outputs := c.outputs ++ [formatted] }],
                       in_code_block := false }
  | some OutputGen.CODE =>
    some { st with cells := st.cells ++ [codeCell formatted], in_code_block := false }
  | some OutputGen.MARKDOWN =>
    some { st with cells := st.cells ++ [markdownCell (mdCodeBody formatted)],
                   in_code_block := false }

/-- `JupyterCodeTranslator.visit_highlightlang` (lines 146-156): adopt
the stripped declared language when it is a configured kernel, else warn
and fall back to the default.  `lang in self.jupyter_kernels` raises
when `jupyter_kernels` is `None`. -/
def visit_highlightlang (cfg : JTConfig) (lang : String) (st : JTState) : Option JTState :=
  let l := pyStrip lang
  match cfg.jupyter_kernels with
  | none => none
  | some ktbl =>
    if (List.lookup l ktbl).isSome then some { st with lang := l }
    else some { st with lang := default_lang,
                        warnings := st.warnings ++ ["highlight language not in jupyter_kernels"] }

/-- Python `list.insert(i, x)` (clamping `i` to the list length). -/
def insertIdx (l : List NbCell) (i : Nat) (c : NbCell) : List NbCell :=
  l.take i ++ [c] ++ l.drop i

/-- The header-insertion loop of `depart_document` (translate_code.py,
lines 122-129): each header of `headers[lang][::-1]` is inserted at the
fixed position `pos`. -/
def insert_headers (cells : List NbCell) (pos : Nat) (hs : List NbCell) : List NbCell :=
  List.foldl (fun cs h => insertIdx cs pos h) cells hs.reverse

/-- `depart_document`, lines 116-120: fall back to the default language
when unset, with a warning. -/
def lang_fallback (st : JTState) : JTState :=
  if st.lang = "" then
    { st with warnings := st.warnings ++ ["highlighting language not given"],
              lang := default_lang }
  else st

/-- `depart_document`, lines 122-134: insert the configured header cells
for the resolved language at position 1 (after the metadata cell) when
metadata writing is enabled and at position 0 otherwise; warn when the
language has no header entry. -/
def apply_headers (cfg : JTConfig) (st : JTState) : JTState :=
  match cfg.jupyter_headers with
  | none => st
  | some tbl =>
    match List.lookup st.lang tbl with
    | some hs =>
      { st with cells := insert_headers st.cells (if cfg.jupyter_write_metadata then 1 else 0) hs }
    | none => { st with warnings := st.warnings ++ ["invalid jupyter headers"] }

/-- `depart_document`, lines 136-144: record the kernelspec metadata;
`self.jupyter_kernels[self.lang]` raises `KeyError` when the resolved
language has no entry. -/
def apply_kernels (cfg : JTConfig) (st : JTState) : Option JTState :=
  match cfg.jupyter_kernels with
  | none => some st
  | some ktbl =>
    match List.lookup st.lang ktbl with
    | none => none
    | some hasKernelspec =>
      if hasKernelspec then some { st with kernelspec := some st.lang }
      else some { st with warnings := st.warnings ++ ["invalid jupyter kernels"] }

/-- `JupyterCodeTranslator.depart_document` (lines 112-144): the
language fallback, the header insertion, then the kernelspec update. -/
def depart_document_code (cfg : JTConfig) (st : JTState) : Option JTState :=
  apply_kernels cfg (apply_headers cfg (lang_fallback st))

/-! ## Markdown-region handlers (translate_all.py) -/

/-- `JupyterTranslator.visit_Text` (lines 69-75): route the node text to
the code buffer while in code mode, else to the markdown buffer. -/
def visit_Text (s : String) (st : JTState) : JTState :=
  if st.in_code_block then { st with code_lines := st.code_lines ++ [s] }
  else { st with markdown_lines := st.markdown_lines ++ [s] }

/-- `JupyterTranslator.visit_image` (lines 81-83). -/
def visit_image (uri : String) (st : JTState) : JTState :=
  { st with markdown_lines :=
      st.markdown_lines ++ [String.mk ("![".data ++ uri.data ++ "](".data ++ uri.data ++ ")".data)] }

/-- `JupyterTranslator.visit_math` (lines 86-90). -/
def visit_math (latex : String) (st : JTState) : JTState :=
  { st with markdown_lines :=
      st.markdown_lines ++ [String.mk ("$ ".data ++ (pyStrip latex).data ++ " $".data)] }

/-- `JupyterTranslator.visit_displaymath` (lines 92-114): the two-column
HTML table holding the display equation, the optional equation-number
reference, and the closing tags. -/
def visit_displaymath (latex : String) (ids : List String) (number : Nat) (st : JTState) : JTState :=
  let formatted := String.mk ("$$\n".data ++ (pyStrip latex).data ++ "\n$$".data ++ sep_paras.data)
  let tableOpen := "<table width=100%><tr style=\x27background-color: #FFFFFF !important;\x27><td width=75%>"
  let tableMid := "</td><td width=25% style=\x27text-align:center !important;\x27>"
  let st := { st with markdown_lines :=
      st.markdown_lines ++ [String.mk (tableOpen.data ++ formatted.data ++ tableMid.data)] }
  let st :=
    if ids ≠ [] then
      { st with markdown_lines :=
          st.markdown_lines ++ [String.mk ("(".data ++ (Nat.repr number).data ++ ")".data)] }
    else st
  { st with markdown_lines := st.markdown_lines ++ ["</td></tr></table>"] }

/-- `JupyterTranslator.depart_paragraph` (lines 127-131): a line
separator inside a list, a paragraph separator at top level. -/
def depart_paragraph (st : JTState) : JTState :=
  if 0 < st.list_level then { st with markdown_lines := st.markdown_lines ++ [sep_lines] }
  else { st with markdown_lines := st.markdown_lines ++ [sep_paras] }

/-- `JupyterTranslator.visit_title` (lines 134-142): flush the pending
markdown cell, then open a heading one level deeper inside a topic. -/
def visit_title (st : JTState) : JTState :=
  let st := add_markdown_cell st
  let depth : Int := if st.in_topic then st.section_level + 1 else st.section_level
  { st with markdown_lines :=
      st.markdown_lines ++ [String.mk (List.replicate depth.toNat '#' ++ [' '])] }

/-- `JupyterTranslator.depart_title` (lines 144-145). -/
def depart_title (st : JTState) : JTState :=
  { st with markdown_lines := st.markdown_lines ++ [sep_paras] }

/-- A reference node's attributes: optional `refuri`, whether it is
marked `internal`, optional `refid`. -/
structure RefNode where
  refuri : Option String
  internal : Bool
  refid : Option String
  deriving DecidableEq, Repr

/-- `JupyterTranslator.visit_reference` (lines 169-173): open the link
text and mark where the label starts. -/
def visit_reference (st : JTState) : JTState :=
  { st with in_reference := true,
            markdown_lines := st.markdown_lines ++ ["["],
            reference_text_start := st.markdown_lines.length + 1 }

/-- `re.sub(URI_SPACE_REPLACE_FROM, URI_SPACE_REPLACE_TO, s)`
(translate_code.py lines 10-11, applied in translate_all.py line 179):
every whitespace character is replaced by a hyphen. -/
def uriSpaceReplace (s : String) : String :=
  String.mk (s.data.map (fun c => if pyIsSpace c then '-' else c))

/-- `JupyterTranslator.depart_reference` (lines 175-204).  Inside a
topic the target is slugified from the label text appended since the
mark; otherwise it comes from `refuri` (with the notebook extension
added to internal links) or `refid`, and an invalid reference reports an
error and emits an empty target. -/
def depart_reference (ext : String) (node : RefNode) (st : JTState) : JTState :=
  let st :=
    if st.in_topic then
      let uri_text := pyStrip (pyJoin (st.markdown_lines.drop st.reference_text_start))
      { st with markdown_lines :=
          st.markdown_lines ++ [String.mk ("](#".data ++ (uriSpaceReplace uri_text).data ++ ")".data)] }
    else
      let refuri : String :=
        match node.refuri with
        | some u => if node.internal then add_extension_to_inline_link u ext else u
        | none =>
          match node.refid with
          | some r => String.mk ('#' :: r.data)
          | none => ""
      let st :=
        if node.refuri = none ∧ node.refid = none then
          { st with errors := st.errors ++ ["Invalid reference"] }
        else st
      { st with markdown_lines :=
          st.markdown_lines ++ [String.mk ("](".data ++ refuri.data ++ ")".data)] }
  { st with in_reference := false }

/-- `JupyterTranslator.visit_target` (lines 207-211). -/
def visit_target (refid : Option String) (st : JTState) : JTState :=
  match refid with
  | some r =>
    { st with markdown_lines :=
        st.markdown_lines ++ [String.mk ("\n<a id=\x27".data ++ r.data ++ "\x27></a>\n".data)] }
  | none => st

/-- `JupyterTranslator.visit_bullet_list` (lines 214-218): push the
marker `"-"` and its indent width (marker length + 1). -/
def visit_bullet_list (st : JTState) : JTState :=
  { st with list_level := st.list_level + 1,
            bullets := st.bullets ++ ["-"],
            indents := st.indents ++ ["-".length + 1] }

/-- `JupyterTranslator.depart_bullet_list` (lines 220-228): at nesting
depth zero append a paragraph separator and, inside a topic, flush; then
pop the marker and indent stacks (raising on an empty stack). -/
def depart_bullet_list (st : JTState) : Option JTState :=
  let st := { st with list_level := st.list_level - 1 }
  let st :=
    if st.list_level = 0 then
      let st := { st with markdown_lines := st.markdown_lines ++ [sep_paras] }
      if st.in_topic then add_markdown_cell st else st
    else st
  if st.bullets.isEmpty || st.indents.isEmpty then none
  else some { st with bullets := st.bullets.dropLast, indents := st.indents.dropLast }

/-- `JupyterTranslator.visit_enumerated_list` (lines 230-234). -/
def visit_enumerated_list (st : JTState) : JTState :=
  { st with list_level := st.list_level + 1,
            bullets := st.bullets ++ ["1."],
            indents := st.indents ++ ["1.".length + 1] }

/-- `JupyterTranslator.depart_enumerated_list` (lines 236-242): like the
bullet variant but with no topic flush. -/
def depart_enumerated_list (st : JTState) : Option JTState :=
  let st := { st with list_level := st.list_level - 1 }
  let st :=
    if st.list_level = 0 then { st with markdown_lines := st.markdown_lines ++ [sep_paras] }
    else st
  if st.bullets.isEmpty || st.indents.isEmpty then none
  else some { st with bullets := st.bullets.dropLast, indents := st.indents.dropLast }

/-- `JupyterTranslator.visit_list_item` (lines 244-248): emit the
current marker and record where the item's content starts (raising when
no list is open). -/
def visit_list_item (st : JTState) : Option JTState :=
  match st.bullets.getLast? with
  | none => none
  | some b =>
    some { st with markdown_lines := st.markdown_lines ++ [String.mk (b.data ++ [' '])],
                   list_item_starts := st.list_item_starts ++ [st.markdown_lines.length + 1] }

/-- Python `s.replace("\n", "\n" + indent)`: insert `indent` after every
newline. -/
def replaceNewlines (indent : List Char) : List Char → List Char
  | [] => []
  | c :: cs =>
    if c = '\n' then '\n' :: (indent ++ replaceNewlines indent cs)
    else c :: replaceNewlines indent cs

/-- `JupyterTranslator.depart_list_item` (lines 250-268): pop the item's
start mark, take the top indent width, remove a trailing line break from
the last fragment (raising `IndexError` when that fragment is empty),
re-indent every newline in the fragments from the mark onward, and
re-append the removed line break. -/
def depart_list_item (st : JTState) : Option JTState :=
  match st.list_item_starts.getLast? with
  | none => none
  | some list_item_start =>
    let starts := st.list_item_starts.dropLast
    match st.indents.getLast? with
    | none => none
    | some n =>
      let indent : List Char := List.replicate n ' '
      match st.markdown_lines.getLast? with
      | none => none
      | some lastFrag =>
        match lastFrag.data.getLast? with
        | none => none
        | some c =>
          let br_removed := c = '\n'
          let lines1 :=
            if br_removed then st.markdown_lines.dropLast ++ [String.mk lastFrag.data.dropLast]
            else st.markdown_lines
          let lines2 := lines1.take list_item_start ++
            (lines1.drop list_item_start).map (fun f => String.mk (replaceNewlines indent f.data))
          let lines3 := if br_removed then lines2 ++ ["\n"] else lines2
          some { st with list_item_starts := starts, markdown_lines := lines3 }

/-- `JupyterTranslator.visit_definition_list` (lines 271-272). -/
def visit_definition_list (st : JTState) : JTState :=
  { st with markdown_lines := st.markdown_lines ++ ["\n<dl style=\x27margin: 20px 0;\x27>\n"] }

/-- `JupyterTranslator.depart_definition_list` (lines 274-275). -/
def depart_definition_list (st : JTState) : JTState :=
  { st with markdown_lines := st.markdown_lines ++ [String.mk ("\n</dl>".data ++ sep_paras.data)] }

/-- `JupyterTranslator.visit_citation` (lines 309-320): enter citation
context and, when ids are present, emit a space-joined anchor. -/
def visit_citation (ids : Option (List String)) (st : JTState) : JTState :=
  let st := { st with in_citation := true }
  match ids with
  | some l =>
    let id_text := String.mk ((pyJoin (l.map (fun i => String.mk (i.data ++ [' '])))).data.dropLast)
    { st with markdown_lines :=
        st.markdown_lines ++ [String.mk ("<a id=\x27".data ++ id_text.data ++ "\x27></a>\n".data)] }
  | none => st

/-- `JupyterTranslator.visit_label` (lines 326-328). -/
def visit_label (st : JTState) : JTState :=
  if st.in_citation then { st with markdown_lines := st.markdown_lines ++ ["\\["] } else st

/-- `JupyterTranslator.depart_label` (lines 330-332). -/
def depart_label (st : JTState) : JTState :=
  if st.in_citation then { st with markdown_lines := st.markdown_lines ++ ["\\] "] } else st

/-- `JupyterTranslator.visit_literal_block` (lines 337-341): the
code-translator visit, then — as code mode is now active — a flush of
the pending markdown cell. -/
def visit_literal_block (cfg : JTConfig) (node : LiteralNode) (st : JTState) : JTState :=
  let st := visit_literal_block_code cfg node st
  if st.in_code_block then add_markdown_cell st else st

/-- `JupyterTranslator.depart_document` (lines 46-52): final flush, then
the code-translator finalisation. -/
def depart_document (cfg : JTConfig) (st : JTState) : Option JTState :=
  depart_document_code cfg (add_markdown_cell st)

/-! ## Traversal -/

/-- One dispatched visit/depart invocation of the traversal engine.
Handlers that are `pass` in the source (`visit_paragraph`,
`visit_figure`, `visit_raw`, `depart_Text`, …) are omitted: they do not
touch the state. -/
inductive JTEvent where
  | visitDoc
  | departDoc
  | visitTopic
  | departTopic
  | visitSection
  | departSection
  | text (s : String)
  | visitTitle
  | departTitle
  | departPara
  | visitEmphasis
  | departEmphasis
  | visitStrong
  | departStrong
  | visitImage (uri : String)
  | visitMath (latex : String)
  | visitDisplaymath (latex : String) (ids : List String) (number : Nat)
  | visitTarget (refid : Option String)
  | visitRef
  | departRef (node : RefNode)
  | visitBullet
  | departBullet
  | visitEnum
  | departEnum
  | visitItem
  | departItem
  | visitDefList
  | departDefList
  | visitTerm
  | departTerm
  | visitDefinition
  | departDefinition
  | visitCitation (ids : Option (List String))
  | departCitation
  | visitLabel
  | departLabel
  | departFigure
  | visitHighlightlang (lang : String)
  | visitLiteral (node : LiteralNode)
  | departLiteral
  deriving DecidableEq, Repr

/-- `self.default_ext = ".ipynb"` (translate_all.py, line 17). -/
def default_ext : String := ".ipynb"

/-- Dispatch one event to the corresponding `JupyterTranslator` handler
(the overriding methods of translate_all.py, falling back to the
inherited `JupyterCodeTranslator` methods). -/
def jt_step (cfg : JTConfig) (e : JTEvent) (st : JTState) : Option JTState :=
  match e with
  | JTEvent.visitDoc => some (visit_document st)
  | JTEvent.departDoc => depart_document cfg st
  | JTEvent.visitTopic => some { st with in_topic := true }
  | JTEvent.departTopic => some { st with in_topic := false }
  | JTEvent.visitSection => some { st with section_level := st.section_level + 1 }
  | JTEvent.departSection => some { st with section_level := st.section_level - 1 }
  | JTEvent.text s => some (visit_Text s st)
  | JTEvent.visitTitle => some (visit_title st)
  | JTEvent.departTitle => some (depart_title st)
  | JTEvent.departPara => some (depart_paragraph st)
  | JTEvent.visitEmphasis => some { st with markdown_lines := st.markdown_lines ++ ["*"] }
  | JTEvent.departEmphasis => some { st with markdown_lines := st.markdown_lines ++ ["*"] }
  | JTEvent.visitStrong => some { st with markdown_lines := st.markdown_lines ++ ["**"] }
  | JTEvent.departStrong => some { st with markdown_lines := st.markdown_lines ++ ["**"] }
  | JTEvent.visitImage uri => some (visit_image uri st)
  | JTEvent.visitMath latex => some (visit_math latex st)
  | JTEvent.visitDisplaymath latex ids number => some (visit_displaymath latex ids number st)
  | JTEvent.visitTarget refid => some (visit_target refid st)
  | JTEvent.visitRef => some (visit_reference st)
  | JTEvent.departRef node => some (depart_reference default_ext node st)
  | JTEvent.visitBullet => some (visit_bullet_list st)
  | JTEvent.departBullet => depart_bullet_list st
  | JTEvent.visitEnum => some (visit_enumerated_list st)
  | JTEvent.departEnum => depart_enumerated_list st
  | JTEvent.visitItem => visit_list_item st
  | JTEvent.departItem => depart_list_item st
  | JTEvent.visitDefList => some (visit_definition_list st)
  | JTEvent.departDefList => some (depart_definition_list st)
  | JTEvent.visitTerm => some { st with markdown_lines := st.markdown_lines ++ ["<dt>"] }
  | JTEvent.departTerm => some { st with markdown_lines := st.markdown_lines ++ ["</dt>\n"] }
  | JTEvent.visitDefinition => some { st with markdown_lines := st.markdown_lines ++ ["<dd>\n"] }
  | JTEvent.departDefinition => some { st with markdown_lines := st.markdown_lines ++ ["</dd>\n"] }
  | JTEvent.visitCitation ids => some (visit_citation ids st)
  | JTEvent.departCitation => some { st with in_citation := false }
  | JTEvent.visitLabel => some (visit_label st)
  | JTEvent.departLabel => some (depart_label st)
  | JTEvent.departFigure => some { st with markdown_lines := st.markdown_lines ++ [sep_lines] }
  | JTEvent.visitHighlightlang lang => visit_highlightlang cfg lang st
  | JTEvent.visitLiteral node => some (visit_literal_block cfg node st)
  | JTEvent.departLiteral => depart_literal_block st

/-- Run a sequence of handler invocations from a given state; a raising
handler aborts the traversal. -/
def runFrom (cfg : JTConfig) : JTState → List JTEvent → Option JTState
  | st, [] => some st
  | st, e :: es =>
    match jt_step cfg e st with
    | none => none
    | some st2 => runFrom cfg st2 es

/-- Run a whole conversion: the state built by `__init__`, then the
dispatched traversal. -/
def jt_run (cfg : JTConfig) (evs : List JTEvent) : Option JTState :=
  runFrom cfg (initState cfg) evs

/-- A configuration with no welcome block, no metadata cell, and no
configured headers or kernels: the minimal conversion context. -/
def cfg0 : JTConfig where
  jupyter_kernels := none
  jupyter_headers := none
  jupyter_write_metadata := false
  welcome := none
  metadata_text := ""
  langTable := []

/-! ## Helper lemmas -/

theorem data_empty : ("" : String).data = [] := rfl

theorem lookup_mem {β : Type} : ∀ (l : List (String × β)) (a : String) (b : β),
    List.lookup a l = some b → (a, b) ∈ l
  | [], a, b, h => by simp [List.lookup] at h
  | (k, v) :: t, a, b, h => by
    by_cases hk : a = k
    · subst hk
      have hv : some v = some b := by simpa [List.lookup] using h
      simp only [Option.some.injEq] at hv
      simp [hv]
    · have hbeq : (a == k) = false := by simpa using hk
      have ht : List.lookup a t = some b := by
        simpa [List.lookup, hbeq] using h
      exact List.mem_cons_of_mem _ (lookup_mem t a b ht)

theorem take_dropLast {α : Type} (l : List α) (m : Nat) (h : m + 1 ≤ l.length) :
    l.dropLast.take m = l.take m := by
  rw [List.dropLast_eq_take, List.take_take]
  congr 1
  omega

/-! ## C8 -/

/-- C8: `add_extension_to_inline_link("page#sec", ".ipynb")` splices the
extension in before the fragment, yielding `"page.ipynb#sec"`; any URI
already containing a `.` is returned unchanged; hence for an extension
containing a `.` the function is idempotent on its own output. -/
theorem C8_add_extension_splice_and_idempotent (ext : String)
    (hext : hasChar '.' ext = true) :
    add_extension_to_inline_link "page#sec" ".ipynb" = "page.ipynb#sec" ∧
    (∀ uri, hasChar '.' uri = true → add_extension_to_inline_link uri ext = uri) ∧
    ∀ uri, add_extension_to_inline_link (add_extension_to_inline_link uri ext) ext =
      add_extension_to_inline_link uri ext := by
  have unchanged : ∀ uri, hasChar '.' uri = true →
      add_extension_to_inline_link uri ext = uri := by
    intro uri h
    simp [add_extension_to_inline_link, h]
  refine ⟨by decide, unchanged, ?_⟩
  intro uri
  cases hu : hasChar '.' uri with
  | true => rw [unchanged uri hu, unchanged uri hu]
  | false =>
    have hext2 : ext.data.any (fun x => x = '.') = true := hext
    have hform : add_extension_to_inline_link uri ext =
        String.mk ((split_uri_id uri).1.data ++ ext.data ++ '#' :: (split_uri_id uri).2.data) := by
      simp [add_extension_to_inline_link, hu]
    have hr : hasChar '.' (add_extension_to_inline_link uri ext) = true := by
      rw [hform]
      simp [hasChar, List.any_append, hext2]
    exact unchanged _ hr

/-- C8 witness: the hypothesis holds for the notebook extension
`".ipynb"`, and idempotence is observed on the spliced output. -/
theorem C8_add_extension_witness :
    add_extension_to_inline_link "page#sec" ".ipynb" = "page.ipynb#sec" ∧
    add_extension_to_inline_link (add_extension_to_inline_link "page#sec" ".ipynb") ".ipynb" =
      add_extension_to_inline_link "page#sec" ".ipynb" :=
  ⟨(C8_add_extension_splice_and_idempotent ".ipynb" (by decide)).1,
   (C8_add_extension_splice_and_idempotent ".ipynb" (by decide)).2.2 "page#sec"⟩

/-! ## C9 -/

/-- C9: a URI containing neither `.` nor `#` comes back with the
extension appended and a trailing `#`, even though the input carried no
fragment. -/
theorem C9_no_dot_no_hash_trailing_hash (uri ext : String)
    (h1 : hasChar '.' uri = false) (h2 : hasChar '#' uri = false) :
    add_extension_to_inline_link uri ext = uri ++ ext ++ "#" := by
  have hall : ∀ c ∈ uri.data, c ≠ '#' := by
    intro c hc hcc
    subst hcc
    have := List.any_eq_false.mp h2 '#' hc
    simp at this
  have htw : uri.data.takeWhile (fun c => decide (c ≠ '#')) = uri.data :=
    List.takeWhile_eq_self_iff.mpr (by intro x hx; simpa using hall x hx)
  have hsplit : split_uri_id uri = (uri, "") := by
    simp only [split_uri_id]
    rw [htw]
    simp
  have hform : add_extension_to_inline_link uri ext =
      String.mk (uri.data ++ ext.data ++ '#' :: ("" : String).data) := by
    simp [add_extension_to_inline_link, h1, hsplit]
  apply String.ext
  rw [hform]
  simp [String.data_append, data_empty]

/-- C9 witness: `add_extension_to_inline_link("page", ".ipynb") =
"page.ipynb#"`. -/
theorem C9_no_dot_no_hash_witness :
    add_extension_to_inline_link "page" ".ipynb" = "page" ++ ".ipynb" ++ "#" :=
  C9_no_dot_no_hash_trailing_hash "page" ".ipynb" (by decide) (by decide)

/-! ## C10 -/

/-- C10: when the most recently appended markdown fragment is the empty
string, `depart_list_item` raises (the `[-1]` access into the empty
string), and the raise aborts the rest of the traversal rather than
being absorbed. -/
theorem C10_empty_fragment_raises (cfg : JTConfig) (st : JTState)
    (h1 : st.list_item_starts ≠ []) (h2 : st.indents ≠ [])
    (h3 : st.markdown_lines.getLast? = some "") :
    depart_list_item st = none ∧
    ∀ rest, runFrom cfg st (JTEvent.departItem :: rest) = none := by
  have hd : depart_list_item st = none := by
    obtain ⟨s, hs⟩ := Option.isSome_iff_exists.mp (List.getLast?_isSome.mpr h1)
    obtain ⟨n, hn⟩ := Option.isSome_iff_exists.mp (List.getLast?_isSome.mpr h2)
    simp [depart_list_item, hs, hn, h3]
  exact ⟨hd, fun rest => by simp [runFrom, jt_step, hd]⟩

/-- The state of C10's failing input: an open bullet list item whose
last appended fragment is an empty text node. -/
def st10 : JTState :=
  { initState cfg0 with
      markdown_lines := ["- ", ""],
      list_item_starts := [1],
      indents := [2],
      bullets := ["-"],
      list_level := 1 }

/-- C10 witness: the abort observed at the concrete failing input. -/
theorem C10_empty_fragment_witness :
    depart_list_item st10 = none ∧ runFrom cfg0 st10 [JTEvent.departItem] = none :=
  ⟨(C10_empty_fragment_raises cfg0 st10 (by decide) (by decide) (by decide)).1,
   (C10_empty_fragment_raises cfg0 st10 (by decide) (by decide) (by decide)).2 []⟩

/-! ## C5 -/

/-- C5 counterexample: inside a topic, a reference label containing a
two-space whitespace run produces the target `#Foo--Bar` — each
whitespace character is replaced by a hyphen — not the `#Foo-Bar` that
the claim's collapse-runs-to-a-single-hyphen rule predicts. -/
theorem C5_counterexample :
    (jt_run cfg0 [JTEvent.visitTopic, JTEvent.visitRef, JTEvent.text "Foo  Bar",
      JTEvent.departRef { refuri := none, internal := false, refid := none }]).map
      JTState.markdown_lines = some ["[", "Foo  Bar", "](#Foo--Bar)"] ∧
    ("](#Foo--Bar)" : String) ≠ "](#Foo-Bar)" :=
  ⟨by decide, by decide⟩

/-- C5 (amended): for every reference closed inside a topic, the emitted
link target is `#` followed by the label text appended since the
reference's start mark, stripped, with every single whitespace character
(not every run) replaced by a hyphen, case preserved; `"Foo Bar"` still
yields `[Foo Bar](#Foo-Bar)`. -/
theorem C5_topic_reference_slug (node : RefNode) (st : JTState)
    (h : st.in_topic = true) :
    depart_reference default_ext node st =
      { st with
          markdown_lines := st.markdown_lines ++
            [String.mk ("](#".data ++
              (uriSpaceReplace (pyStrip (pyJoin
                (st.markdown_lines.drop st.reference_text_start)))).data ++ ")".data)],
          in_reference := false } := by
  simp [depart_reference, h]

/-- The state of C5's example: an open topic reference whose label text
so far is `"Foo Bar"`. -/
def st5 : JTState :=
  { initState cfg0 with
      in_topic := true,
      in_reference := true,
      markdown_lines := ["[", "Foo Bar"],
      reference_text_start := 1 }

/-- C5 witness: the single-space label of the claim's example, produced
through the amended rule. -/
theorem C5_topic_reference_witness :
    depart_reference default_ext { refuri := none, internal := false, refid := none } st5 =
      { st5 with markdown_lines := ["[", "Foo Bar", "](#Foo-Bar)"], in_reference := false } :=
  (C5_topic_reference_slug { refuri := none, internal := false, refid := none } st5 rfl).trans
    (by decide)

/-! ## C4 -/

/-- C4 counterexample: in the claim's own two-level bulleted scenario the
inner item content `"B\nC"` is re-indented to `"B\n  C"` — a 2-space
indent (`len("-") + 1`), not the 4-space indent the claim states. -/
theorem C4_counterexample :
    (jt_run cfg0 [JTEvent.visitBullet, JTEvent.visitItem, JTEvent.text "A",
      JTEvent.visitBullet, JTEvent.visitItem, JTEvent.text "B\nC",
      JTEvent.departItem]).map JTState.markdown_lines =
      some ["- ", "A", "- ", "B\n  C"] ∧
    ("B\n  C" : String) ≠ "B\n    C" :=
  ⟨by decide, by decide⟩

/-- C4 (amended): when a list item with content closes, only the buffer
fragments from its recorded start mark onward are modified: a trailing
line break on the last fragment is removed first, every internal line
break in the since-mark fragments then gains the current level's indent
(the recorded indent width, which is marker length + 1: two spaces for a
`"-"` marker), and the removed line break is re-appended as its own
fragment — while all fragments before the mark are unchanged, the mark
is popped, and no cell is touched. -/
theorem C4_reindent_locality (st : JTState) (starts : List Nat) (m n : Nat) (f : String)
    (hs : st.list_item_starts = starts ++ [m])
    (hn : st.indents.getLast? = some n)
    (hm : m < st.markdown_lines.length)
    (hf : st.markdown_lines.getLast? = some f)
    (hne : f.data ≠ []) :
    ∃ st2, depart_list_item st = some st2 ∧
      st2.list_item_starts = starts ∧
      st2.cells = st.cells ∧
      st2.markdown_lines.take m = st.markdown_lines.take m ∧
      (f.data.getLast? ≠ some '\n' →
        st2.markdown_lines = st.markdown_lines.take m ++
          (st.markdown_lines.drop m).map
            (fun g => String.mk (replaceNewlines (List.replicate n ' ') g.data))) ∧
      (f.data.getLast? = some '\n' →
        st2.markdown_lines = st.markdown_lines.take m ++
          ((st.markdown_lines.dropLast ++ [String.mk f.data.dropLast]).drop m).map
            (fun g => String.mk (replaceNewlines (List.replicate n ' ') g.data)) ++ ["\n"]) := by
  have hstart : st.list_item_starts.getLast? = some m := by
    rw [hs]; exact List.getLast?_concat _
  have hdropS : st.list_item_starts.dropLast = starts := by
    rw [hs]; exact List.dropLast_concat
  obtain ⟨c, hc⟩ := Option.isSome_iff_exists.mp (List.getLast?_isSome.mpr hne)
  by_cases hbr : c = '\n'
  · subst hbr
    have hrun : depart_list_item st = some { st with
        list_item_starts := starts,
        markdown_lines :=
          ((st.markdown_lines.dropLast ++ [String.mk f.data.dropLast]).take m ++
           ((st.markdown_lines.dropLast ++ [String.mk f.data.dropLast]).drop m).map
             (fun g => String.mk (replaceNewlines (List.replicate n ' ') g.data))) ++ ["\n"] } := by
      simp [depart_list_item, hstart, hn, hf, hc, hdropS]
    have hld : m ≤ st.markdown_lines.dropLast.length := by
      simp only [List.length_dropLast]; omega
    have htake1 : (st.markdown_lines.dropLast ++ [String.mk f.data.dropLast]).take m =
        st.markdown_lines.take m := by
      rw [List.take_append_of_le_length hld]
      exact take_dropLast _ _ (by omega)
    refine ⟨_, hrun, rfl, rfl, ?_, fun habs => absurd hc habs, ?_⟩
    · have hlen2 : m ≤ ((st.markdown_lines.dropLast ++ [String.mk f.data.dropLast]).take m).length := by
        simp only [List.length_take, List.length_append, List.length_dropLast]
        omega
      show (_ ++ ["\n"]).take m = _
      rw [List.take_append_of_le_length (le_trans hlen2 (by simp [List.length_append]))]
      rw [List.take_append_of_le_length hlen2, htake1]
      simp [List.take_take]
    · intro _
      rw [htake1]
  · have hrun : depart_list_item st = some { st with
        list_item_starts := starts,
        markdown_lines :=
          st.markdown_lines.take m ++
          (st.markdown_lines.drop m).map
            (fun g => String.mk (replaceNewlines (List.replicate n ' ') g.data)) } := by
      simp [depart_list_item, hstart, hn, hf, hc, hdropS, hbr]
    refine ⟨_, hrun, rfl, rfl, ?_, fun _ => rfl, ?_⟩
    · rw [List.take_append_of_le_length (by simp only [List.length_take]; omega)]
      simp [List.take_take]
    · intro h
      rw [hc] at h
      simp only [Option.some.injEq] at h
      exact absurd h hbr

/-- The state of C4's scenario: outer item `"A"`, open inner item with
content `"B\nC"`, both levels bulleted. -/
def st4 : JTState :=
  { initState cfg0 with
      markdown_lines := ["- ", "A", "- ", "B\nC"],
      list_item_starts := [1, 3],
      indents := [2, 2],
      bullets := ["-", "-"],
      list_level := 2 }

/-- The state of a second C4 scenario: a single bullet item whose
content `"X\nY"` is followed by the line-separator fragment
`"  \n"` that `depart_paragraph` appends inside lists, so the last
fragment ends in a line break. -/
def st4b : JTState :=
  { initState cfg0 with
      markdown_lines := ["- ", "X\nY", "  \n"],
      list_item_starts := [1],
      indents := [2],
      bullets := ["-"],
      list_level := 1 }

/-- C4 witness: the amended locality statement at the claim's concrete
scenario (with the code's actual 2-space indent), and at a scenario
whose item content ends in a line break. -/
theorem C4_reindent_witness :
    (∃ st2, depart_list_item st4 = some st2 ∧
      st2.list_item_starts = [1] ∧
      st2.cells = st4.cells ∧
      st2.markdown_lines.take 3 = st4.markdown_lines.take 3 ∧
      (("B\nC" : String).data.getLast? ≠ some '\n' →
        st2.markdown_lines = st4.markdown_lines.take 3 ++
          (st4.markdown_lines.drop 3).map
            (fun g => String.mk (replaceNewlines (List.replicate 2 ' ') g.data))) ∧
      (("B\nC" : String).data.getLast? = some '\n' →
        st2.markdown_lines = st4.markdown_lines.take 3 ++
          ((st4.markdown_lines.dropLast ++ [String.mk ("B\nC" : String).data.dropLast]).drop 3).map
            (fun g => String.mk (replaceNewlines (List.replicate 2 ' ') g.data)) ++ ["\n"])) ∧
    (∃ st2, depart_list_item st4b = some st2 ∧
      st2.list_item_starts = [] ∧
      st2.cells = st4b.cells ∧
      st2.markdown_lines.take 1 = st4b.markdown_lines.take 1 ∧
      (("  \n" : String).data.getLast? ≠ some '\n' →
        st2.markdown_lines = st4b.markdown_lines.take 1 ++
          (st4b.markdown_lines.drop 1).map
            (fun g => String.mk (replaceNewlines (List.replicate 2 ' ') g.data))) ∧
      (("  \n" : String).data.getLast? = some '\n' →
        st2.markdown_lines = st4b.markdown_lines.take 1 ++
          ((st4b.markdown_lines.dropLast ++ [String.mk ("  \n" : String).data.dropLast]).drop 1).map
            (fun g => String.mk (replaceNewlines (List.replicate 2 ' ') g.data)) ++ ["\n"])) :=
  ⟨C4_reindent_locality st4 [1] 3 2 "B\nC" (by decide) (by decide) (by decide)
      (by decide) (by decide),
   C4_reindent_locality st4b [] 1 2 "  \n" (by decide) (by decide) (by decide)
      (by decide) (by decide)⟩

/-! ## Traversal helper lemmas -/

theorem runFrom_append (cfg : JTConfig) : ∀ (evs1 evs2 : List JTEvent) (st : JTState),
    runFrom cfg st (evs1 ++ evs2) =
      (runFrom cfg st evs1).bind (fun st1 => runFrom cfg st1 evs2)
  | [], evs2, st => by simp [runFrom]
  | e :: es, evs2, st => by
    simp only [List.cons_append, runFrom]
    cases jt_step cfg e st with
    | none => simp
    | some st1 => simpa using runFrom_append cfg es evs2 st1

theorem add_markdown_cell_output_cell_type (st : JTState) :
    (add_markdown_cell st).output_cell_type = st.output_cell_type := by
  simp only [add_markdown_cell]; split <;> rfl

theorem add_markdown_cell_in_code_block (st : JTState) :
    (add_markdown_cell st).in_code_block = st.in_code_block := by
  simp only [add_markdown_cell]; split <;> rfl

theorem add_markdown_cell_code_lines (st : JTState) :
    (add_markdown_cell st).code_lines = st.code_lines := by
  simp only [add_markdown_cell]; split <;> rfl

theorem add_markdown_cell_lang (st : JTState) :
    (add_markdown_cell st).lang = st.lang := by
  simp only [add_markdown_cell]; split <;> rfl

theorem add_markdown_cell_warnings (st : JTState) :
    (add_markdown_cell st).warnings = st.warnings := by
  simp only [add_markdown_cell]; split <;> rfl

theorem runFrom_texts (cfg : JTConfig) : ∀ (texts : List String) (st : JTState),
    st.in_code_block = true →
    runFrom cfg st (texts.map JTEvent.text) =
      some { st with code_lines := st.code_lines ++ texts }
  | [], st, h => by simp [runFrom]
  | t :: ts, st, h => by
    simp only [List.map_cons, runFrom, jt_step, visit_Text, h, if_true]
    rw [runFrom_texts cfg ts _ rfl]
    simp

/-! ## C1 -/

theorem depart_literal_block_markdown (st : JTState)
    (h : st.output_cell_type = some OutputGen.MARKDOWN) :
    depart_literal_block st = some { st with
      cells := st.cells ++ [markdownCell (mdCodeBody
        (strip_blank_lines_in_end_of_block (pyJoin st.code_lines)))],
      in_code_block := false } := by
  simp only [depart_literal_block, h]

theorem visit_literal_block_code_in_code_block (cfg : JTConfig) (node : LiteralNode)
    (st : JTState) : (visit_literal_block_code cfg node st).in_code_block = true := by
  simp only [visit_literal_block_code]; split <;> rfl

theorem visit_literal_block_eq (cfg : JTConfig) (node : LiteralNode) (st : JTState) :
    visit_literal_block cfg node st = add_markdown_cell (visit_literal_block_code cfg node st) := by
  simp only [visit_literal_block]
  rw [visit_literal_block_code_in_code_block]
  simp

theorem runFrom_departLiteral_markdown (cfg : JTConfig) (st : JTState)
    (h : st.output_cell_type = some OutputGen.MARKDOWN) :
    runFrom cfg st [JTEvent.departLiteral] = some { st with
      cells := st.cells ++ [markdownCell (mdCodeBody
        (strip_blank_lines_in_end_of_block (pyJoin st.code_lines)))],
      in_code_block := false } := by
  simp only [runFrom, jt_step]
  rw [depart_literal_block_markdown st h]

/-- C1: when the resolved (normalised) language of a literal block
differs from the normalised document kernel language, the strategy is
forced to `MARKDOWN` regardless of the block's declared classes, and the
cell produced for the block at departure is a markdown cell — no code
cell is appended to the cell stream for it. -/
theorem C1_foreign_language_demotion (cfg : JTConfig) (st : JTState) (node : LiteralNode)
    (texts : List String)
    (h : langTranslate cfg.langTable (nodeDeclaredLang node.language st) ≠
         langTranslate cfg.langTable st.lang) :
    (visit_literal_block cfg node st).output_cell_type = some OutputGen.MARKDOWN ∧
    ∃ st2, runFrom cfg (visit_literal_block cfg node st)
        (texts.map JTEvent.text ++ [JTEvent.departLiteral]) = some st2 ∧
      st2.cells = (visit_literal_block cfg node st).cells ++
        [markdownCell (mdCodeBody (strip_blank_lines_in_end_of_block (pyJoin texts)))] ∧
      ∀ c ∈ st2.cells, c.cell_type = CellKind.code →
        c ∈ (visit_literal_block cfg node st).cells := by
  have hgen : (visit_literal_block_code cfg node st).output_cell_type =
      some OutputGen.MARKDOWN := by
    simp only [visit_literal_block_code]
    rw [if_pos h]
  have hcl : (visit_literal_block_code cfg node st).code_lines = [] := by
    simp only [visit_literal_block_code]; split <;> rfl
  have hout : (visit_literal_block cfg node st).output_cell_type = some OutputGen.MARKDOWN := by
    rw [visit_literal_block_eq, add_markdown_cell_output_cell_type, hgen]
  have hicb : (visit_literal_block cfg node st).in_code_block = true := by
    rw [visit_literal_block_eq, add_markdown_cell_in_code_block,
      visit_literal_block_code_in_code_block]
  have hcl2 : (visit_literal_block cfg node st).code_lines = [] := by
    rw [visit_literal_block_eq, add_markdown_cell_code_lines, hcl]
  refine ⟨hout, ?_⟩
  have houtX : ({ visit_literal_block cfg node st with
      code_lines := (visit_literal_block cfg node st).code_lines ++ texts } : JTState).output_cell_type
      = some OutputGen.MARKDOWN := hout
  rw [runFrom_append, runFrom_texts cfg texts _ hicb]
  simp only [Option.some_bind]
  rw [runFrom_departLiteral_markdown cfg _ houtX]
  refine ⟨_, rfl, ?_, ?_⟩
  · show (visit_literal_block cfg node st).cells ++
        [markdownCell (mdCodeBody (strip_blank_lines_in_end_of_block
          (pyJoin ((visit_literal_block cfg node st).code_lines ++ texts))))] = _
    rw [hcl2]
    simp
  · intro c hc hct
    have hc2 : c ∈ (visit_literal_block cfg node st).cells ++
        [markdownCell (mdCodeBody (strip_blank_lines_in_end_of_block
          (pyJoin ((visit_literal_block cfg node st).code_lines ++ texts))))] := hc
    rcases List.mem_append.mp hc2 with hin | hin
    · exact hin
    · exfalso
      simp only [List.mem_singleton] at hin
      subst hin
      simp [markdownCell] at hct

/-- The literal block of C1's example: declared `language="bash"`, no
classes. -/
def nodeBash : LiteralNode :=
  { classes := [], language := some "bash" }

/-- The state of C1's example: a document whose current kernel language
is `"python3"`. -/
def stw : JTState :=
  { initState cfg0 with lang := "python3" }

/-- C1 witness: a `bash` block in a `python3` document, containing
`echo hi`, is demoted to a markdown cell and appends no code cell. -/
theorem C1_foreign_language_demotion_witness :
    (visit_literal_block cfg0 nodeBash stw).output_cell_type = some OutputGen.MARKDOWN ∧
    ∃ st2, runFrom cfg0 (visit_literal_block cfg0 nodeBash stw)
        ((["echo hi"] : List String).map JTEvent.text ++ [JTEvent.departLiteral]) = some st2 ∧
      st2.cells = (visit_literal_block cfg0 nodeBash stw).cells ++
        [markdownCell (mdCodeBody (strip_blank_lines_in_end_of_block (pyJoin ["echo hi"])))] ∧
      ∀ c ∈ st2.cells, c.cell_type = CellKind.code →
        c ∈ (visit_literal_block cfg0 nodeBash stw).cells :=
  C1_foreign_language_demotion cfg0 stw nodeBash ["echo hi"] (by decide)

/-! ## C6 -/

theorem apply_kernels_cells (cfg : JTConfig) (st st2 : JTState)
    (hd : apply_kernels cfg st = some st2) : st2.cells = st.cells := by
  simp only [apply_kernels] at hd
  repeat' split at hd
  all_goals first
    | exact Option.noConfusion hd
    | (simp only [Option.some.injEq] at hd; subst hd; rfl)

theorem insert_headers_eq (cells : List NbCell) (pos : Nat) (hs : List NbCell)
    (h : pos ≤ cells.length) :
    insert_headers cells pos hs = cells.take pos ++ hs ++ cells.drop pos := by
  induction hs with
  | nil => simp [insert_headers, List.take_append_drop]
  | cons hd tl ih =>
    have hstep : insert_headers cells pos (hd :: tl) =
        insertIdx (insert_headers cells pos tl) pos hd := by
      simp [insert_headers, List.reverse_cons, List.foldl_append]
    have hassoc : cells.take pos ++ tl ++ cells.drop pos =
        cells.take pos ++ (tl ++ cells.drop pos) := List.append_assoc _ _ _
    rw [hstep, ih, hassoc]
    have hlen : (cells.take pos).length = pos := by
      simp only [List.length_take]
      omega
    unfold insertIdx
    rw [List.take_left' hlen, List.drop_left' hlen]
    simp

/-- C6 counterexample: with a welcome block configured, metadata writing
enabled, and one configured header, the finalised stream is
`[welcome, header, metadata, body]` — the metadata cell is not the very
first cell (the welcome cell is), and the header lands before the
metadata cell, not immediately after it. -/
def cfg6 : JTConfig where
  jupyter_kernels := none
  jupyter_headers := some [("python3", [markdownCell "header"])]
  jupyter_write_metadata := true
  welcome := some "welcome"
  metadata_text := "meta"
  langTable := []

theorem C6_counterexample :
    (jt_run cfg6 [JTEvent.visitDoc, JTEvent.text "body", JTEvent.departDoc]).map
      JTState.cells =
      some [markdownCell "welcome", markdownCell "header", markdownCell "meta",
        markdownCell "body"] ∧
    markdownCell "welcome" ≠ metadataCell cfg6 :=
  ⟨by decide, by decide⟩

/-- C6 (amended): at finalize time the configured header cells for the
resolved language are inserted at fixed index 1 when metadata writing is
enabled, else at index 0, in reverse declared order so their final
relative order matches configuration order.  Hence: with no welcome
block, the metadata cell (when enabled) is the very first cell and the
headers follow it immediately (at position zero when disabled); with a
welcome block and metadata enabled, the welcome cell is first and the
headers land between it and the metadata cell; with a welcome block and
metadata disabled, the headers precede the welcome cell. -/
theorem C6_header_insertion (cfg : JTConfig) (tbl : List (String × List NbCell))
    (hs rest : List NbCell) (st : JTState)
    (hH : cfg.jupyter_headers = some tbl)
    (hlang : st.lang ≠ "")
    (hL : List.lookup st.lang tbl = some hs)
    (hcells : st.cells = initial_cells cfg ++ rest) :
    ∃ mid,
      (cfg.jupyter_kernels = none → ∃ st2, depart_document cfg st = some st2) ∧
      ∀ st2, depart_document cfg st = some st2 →
        (cfg.welcome = none → cfg.jupyter_write_metadata = true →
          st2.cells = metadataCell cfg :: (hs ++ mid)) ∧
        (cfg.welcome = none → cfg.jupyter_write_metadata = false →
          st2.cells = hs ++ mid) ∧
        (∀ w, cfg.welcome = some w → cfg.jupyter_write_metadata = true →
          st2.cells = markdownCell (strip_blank_lines_in_end_of_block w) ::
            (hs ++ metadataCell cfg :: mid)) ∧
        (∀ w, cfg.welcome = some w → cfg.jupyter_write_metadata = false →
          st2.cells = hs ++ markdownCell (strip_blank_lines_in_end_of_block w) :: mid) := by
  have hlang2 : (add_markdown_cell st).lang = st.lang := add_markdown_cell_lang st
  have hmd : ∃ tail, (add_markdown_cell st).cells = (initial_cells cfg ++ rest) ++ tail := by
    by_cases hb : 0 < (pyStrip (strip_blank_lines_in_end_of_block (pyJoin st.markdown_lines))).length
    · exact ⟨[markdownCell (strip_blank_lines_in_end_of_block (pyJoin st.markdown_lines))],
        by simp [add_markdown_cell, hb, hcells]⟩
    · exact ⟨[], by simp [add_markdown_cell, hb, hcells]⟩
  obtain ⟨tail, htail⟩ := hmd
  have hlang3 : ¬((add_markdown_cell st).lang = "") := by rw [hlang2]; exact hlang
  have hdd : depart_document cfg st =
      apply_kernels cfg { add_markdown_cell st with
        cells := insert_headers (add_markdown_cell st).cells
          (if cfg.jupyter_write_metadata then 1 else 0) hs } := by
    simp only [depart_document, depart_document_code, lang_fallback, if_neg hlang3]
    simp only [apply_headers, hH, hlang2, hL]
  refine ⟨rest ++ tail, ?_, ?_⟩
  · intro hK
    rw [hdd]
    apply Option.isSome_iff_exists.mp
    simp only [apply_kernels, hK, Option.isSome_some]
  · intro st2 hst2
    rw [hdd] at hst2
    have hc2 : st2.cells = insert_headers (add_markdown_cell st).cells
        (if cfg.jupyter_write_metadata then 1 else 0) hs := apply_kernels_cells cfg _ _ hst2
    refine ⟨?_, ?_, ?_, ?_⟩
    · intro hW hwm
      rw [hc2, htail]
      simp only [initial_cells, hW, hwm, if_pos rfl]
      rw [insert_headers_eq _ _ _ (by simp)]
      simp
    · intro hW hwm
      rw [hc2, htail]
      simp only [initial_cells, hW, hwm, Bool.false_eq_true, if_false]
      rw [insert_headers_eq _ _ _ (by simp)]
      simp
    · intro w hW hwm
      rw [hc2, htail]
      simp only [initial_cells, hW, hwm, if_pos rfl]
      rw [insert_headers_eq _ _ _ (by simp)]
      simp
    · intro w hW hwm
      rw [hc2, htail]
      simp only [initial_cells, hW, hwm, Bool.false_eq_true, if_false]
      rw [insert_headers_eq _ _ _ (by simp)]
      simp

/-- The configuration of C6's witness: metadata writing on, two headers
for `python3`, no welcome block. -/
def cfgW6 : JTConfig where
  jupyter_kernels := none
  jupyter_headers := some [("python3", [markdownCell "h1", markdownCell "h2"])]
  jupyter_write_metadata := true
  welcome := none
  metadata_text := "meta"
  langTable := []

/-- The pre-finalisation state of C6's witness. -/
def st6 : JTState :=
  { initState cfgW6 with
      lang := "python3",
      cells := initial_cells cfgW6 ++ [markdownCell "body"] }

/-- C6's witness configuration with a welcome block configured. -/
def cfgW6b : JTConfig :=
  { cfgW6 with welcome := some "welcome" }

/-- The pre-finalisation state of C6's welcome-block witness. -/
def st6b : JTState :=
  { initState cfgW6b with
      lang := "python3",
      cells := initial_cells cfgW6b ++ [markdownCell "body"] }

/-- C6 witness: without a welcome block the metadata cell stays first
and both headers follow it in configuration order; with a welcome block
the welcome cell is first and the headers land between it and the
metadata cell. -/
theorem C6_header_insertion_witness :
    (∃ mid,
      (cfgW6.jupyter_kernels = none → ∃ st2, depart_document cfgW6 st6 = some st2) ∧
      ∀ st2, depart_document cfgW6 st6 = some st2 →
        (cfgW6.welcome = none → cfgW6.jupyter_write_metadata = true →
          st2.cells = metadataCell cfgW6 :: ([markdownCell "h1", markdownCell "h2"] ++ mid)) ∧
        (cfgW6.welcome = none → cfgW6.jupyter_write_metadata = false →
          st2.cells = [markdownCell "h1", markdownCell "h2"] ++ mid) ∧
        (∀ w, cfgW6.welcome = some w → cfgW6.jupyter_write_metadata = true →
          st2.cells = markdownCell (strip_blank_lines_in_end_of_block w) ::
            ([markdownCell "h1", markdownCell "h2"] ++ metadataCell cfgW6 :: mid)) ∧
        (∀ w, cfgW6.welcome = some w → cfgW6.jupyter_write_metadata = false →
          st2.cells = [markdownCell "h1", markdownCell "h2"] ++
            markdownCell (strip_blank_lines_in_end_of_block w) :: mid)) ∧
    (∃ mid,
      (cfgW6b.jupyter_kernels = none → ∃ st2, depart_document cfgW6b st6b = some st2) ∧
      ∀ st2, depart_document cfgW6b st6b = some st2 →
        (cfgW6b.welcome = none → cfgW6b.jupyter_write_metadata = true →
          st2.cells = metadataCell cfgW6b :: ([markdownCell "h1", markdownCell "h2"] ++ mid)) ∧
        (cfgW6b.welcome = none → cfgW6b.jupyter_write_metadata = false →
          st2.cells = [markdownCell "h1", markdownCell "h2"] ++ mid) ∧
        (∀ w, cfgW6b.welcome = some w → cfgW6b.jupyter_write_metadata = true →
          st2.cells = markdownCell (strip_blank_lines_in_end_of_block w) ::
            ([markdownCell "h1", markdownCell "h2"] ++ metadataCell cfgW6b :: mid)) ∧
        (∀ w, cfgW6b.welcome = some w → cfgW6b.jupyter_write_metadata = false →
          st2.cells = [markdownCell "h1", markdownCell "h2"] ++
            markdownCell (strip_blank_lines_in_end_of_block w) :: mid)) :=
  ⟨C6_header_insertion cfgW6 [("python3", [markdownCell "h1", markdownCell "h2"])]
      [markdownCell "h1", markdownCell "h2"] [markdownCell "body"] st6
      rfl (by decide) (by decide) (by decide),
   C6_header_insertion cfgW6b [("python3", [markdownCell "h1", markdownCell "h2"])]
      [markdownCell "h1", markdownCell "h2"] [markdownCell "body"] st6b
      rfl (by decide) (by decide) (by decide)⟩

/-! ## C2 -/

/-- Events whose handler may append to the cell stream (the only
candidates for a markdown-buffer flush, plus the code-cell emission of
`depart_literal_block` and the header insertion of `depart_document`). -/
def mayFlushMd : JTEvent → Bool
  | JTEvent.visitTitle => true
  | JTEvent.departDoc => true
  | JTEvent.departBullet => true
  | JTEvent.visitLiteral _ => true
  | JTEvent.departLiteral => true
  | _ => false

/-- The buffer state on which the topic flush of `depart_bullet_list`
operates: nesting depth returned to zero, paragraph separator
appended. -/
def bullet_flush_input (st : JTState) : JTState :=
  { st with list_level := 0, markdown_lines := st.markdown_lines ++ [sep_paras] }

theorem add_markdown_cell_cells_congr (st1 st2 : JTState)
    (hm : st1.markdown_lines = st2.markdown_lines) (hc : st1.cells = st2.cells) :
    (add_markdown_cell st1).cells = (add_markdown_cell st2).cells := by
  by_cases hb : 0 < (pyStrip (strip_blank_lines_in_end_of_block (pyJoin st2.markdown_lines))).length
  · simp [add_markdown_cell, hm, hc, hb]
  · simp [add_markdown_cell, hm, hc, hb]

theorem visit_literal_block_code_markdown_lines (cfg : JTConfig) (node : LiteralNode)
    (st : JTState) : (visit_literal_block_code cfg node st).markdown_lines = st.markdown_lines := by
  simp only [visit_literal_block_code]; split <;> rfl

theorem visit_literal_block_code_cells (cfg : JTConfig) (node : LiteralNode)
    (st : JTState) : (visit_literal_block_code cfg node st).cells = st.cells := by
  simp only [visit_literal_block_code]; split <;> rfl

/-- C2 counterexample: an enumerated list closing at top level inside a
topic does not flush — the cell stream stays empty even though the
pending buffer (`"1. A\n\n"`) is flush-worthy — contradicting the
claim's boundary point 4 for enumerated lists. -/
theorem C2_counterexample :
    (jt_run cfg0 [JTEvent.visitTopic, JTEvent.visitEnum, JTEvent.visitItem,
      JTEvent.text "A", JTEvent.departItem, JTEvent.departEnum]).map JTState.cells =
      some [] ∧
    (jt_run cfg0 [JTEvent.visitTopic, JTEvent.visitEnum, JTEvent.visitItem,
      JTEvent.text "A", JTEvent.departItem, JTEvent.departEnum]).map JTState.markdown_lines =
      some ["1. ", "A", "\n\n"] ∧
    0 < (pyStrip (strip_blank_lines_in_end_of_block (pyJoin ["1. ", "A", "\n\n"]))).length :=
  ⟨by decide, by decide, by decide⟩

theorem visit_title_cells (st : JTState) :
    (visit_title st).cells = (add_markdown_cell st).cells := by
  simp only [visit_title]

theorem visit_literal_block_cells (cfg : JTConfig) (node : LiteralNode) (st : JTState) :
    (visit_literal_block cfg node st).cells = (add_markdown_cell st).cells := by
  rw [visit_literal_block_eq]
  exact add_markdown_cell_cells_congr _ _
    (visit_literal_block_code_markdown_lines cfg node st)
    (visit_literal_block_code_cells cfg node st)

set_option maxHeartbeats 1000000 in
theorem depart_enumerated_list_cells (st st2 : JTState)
    (hd : depart_enumerated_list st = some st2) : st2.cells = st.cells := by
  simp only [depart_enumerated_list] at hd
  by_cases hlv : st.list_level - 1 = 0
  · rw [if_pos hlv] at hd
    norm_num at hd
    obtain ⟨-, hx⟩ := hd
    subst hx
    rfl
  · rw [if_neg hlv] at hd
    norm_num at hd
    obtain ⟨-, hx⟩ := hd
    subst hx
    rfl

set_option maxHeartbeats 8000000 in
theorem depart_bullet_list_cells (st st2 : JTState)
    (hd : depart_bullet_list st = some st2) :
    st2.cells = st.cells ∨
    st2.cells = (add_markdown_cell (bullet_flush_input st)).cells := by
  by_cases hlv : st.list_level - 1 = 0
  · by_cases ht : st.in_topic = true
    · simp only [depart_bullet_list, hlv, ht] at hd
      norm_num at hd
      obtain ⟨-, hx⟩ := hd
      subst hx
      right
      dsimp only
      exact add_markdown_cell_cells_congr _ _ rfl rfl
    · have ht2 : st.in_topic = false := by revert ht; cases st.in_topic <;> simp
      simp only [depart_bullet_list, hlv, ht2] at hd
      norm_num at hd
      obtain ⟨-, hx⟩ := hd
      subst hx
      exact Or.inl rfl
  · simp only [depart_bullet_list] at hd
    rw [if_neg hlv] at hd
    norm_num at hd
    obtain ⟨-, hx⟩ := hd
    subst hx
    exact Or.inl rfl

set_option maxHeartbeats 4000000 in
theorem depart_literal_block_markdown_lines (st st2 : JTState)
    (hd : depart_literal_block st = some st2) : st2.markdown_lines = st.markdown_lines := by
  simp only [depart_literal_block] at hd
  repeat' split at hd
  all_goals first
    | exact Option.noConfusion hd
    | (simp only [Option.some.injEq] at hd; subst hd; rfl)

set_option maxHeartbeats 2000000 in
theorem jt_step_cells_nonflush (cfg : JTConfig) (e : JTEvent) (st st2 : JTState)
    (hd : jt_step cfg e st = some st2) (hmay : mayFlushMd e = false) :
    st2.cells = st.cells := by
  cases e
  all_goals try exact Bool.noConfusion hmay
  all_goals
    simp only [jt_step, visit_document, visit_Text, visit_image, visit_math,
      visit_displaymath, depart_paragraph, depart_title, visit_reference,
      depart_reference, visit_target, visit_bullet_list, visit_enumerated_list,
      depart_enumerated_list, visit_list_item, depart_list_item,
      visit_definition_list, depart_definition_list, visit_citation,
      visit_label, depart_label, visit_highlightlang] at hd
  all_goals repeat' split at hd
  all_goals first
    | exact Option.noConfusion hd
    | (simp only [Option.some.injEq] at hd; subst hd; rfl)

set_option maxHeartbeats 2000000 in
/-- C2 (amended): the markdown buffer is flushed at exactly these
points: before rendering a title; at the start of every literal (code)
block, whatever its language — not only after a foreign-language
demotion; at document end; and after the outermost bullet list inside a
topic closes.  Enumerated lists never flush, even inside a topic, and no
other handler appends any cell (the code-block exit emits from the code
buffer and leaves the markdown buffer untouched). -/
theorem C2_flush_boundaries (cfg : JTConfig) :
    (∀ st, (visit_title st).cells = (add_markdown_cell st).cells) ∧
    (∀ st node, (visit_literal_block cfg node st).cells = (add_markdown_cell st).cells) ∧
    (∀ st, depart_document cfg st = depart_document_code cfg (add_markdown_cell st)) ∧
    (∀ st st2, depart_bullet_list st = some st2 → st.in_topic = true → st.list_level = 1 →
      st2.cells = (add_markdown_cell (bullet_flush_input st)).cells) ∧
    (∀ st st2, depart_bullet_list st = some st2 → ¬(st.in_topic = true ∧ st.list_level = 1) →
      st2.cells = st.cells) ∧
    (∀ st st2, depart_enumerated_list st = some st2 → st2.cells = st.cells) ∧
    (∀ st st2, depart_literal_block st = some st2 → st2.markdown_lines = st.markdown_lines) ∧
    (∀ e st st2, mayFlushMd e = false → jt_step cfg e st = some st2 → st2.cells = st.cells) := by
  refine ⟨visit_title_cells, fun st node => visit_literal_block_cells cfg node st,
    fun st => rfl, ?_, ?_, depart_enumerated_list_cells,
    depart_literal_block_markdown_lines,
    fun e st st2 hmay hd => jt_step_cells_nonflush cfg e st st2 hd hmay⟩
  · intro st st2 hd ht hl
    simp only [depart_bullet_list, hl, ht] at hd
    norm_num at hd
    obtain ⟨-, hx⟩ := hd
    subst hx
    dsimp only
    exact add_markdown_cell_cells_congr _ _ rfl rfl
  · intro st st2 hd hno
    simp only [depart_bullet_list] at hd
    by_cases hlv : st.list_level - 1 = 0
    · have hl1 : st.list_level = 1 := by omega
      have ht : st.in_topic = false := by
        cases htop : st.in_topic
        · rfl
        · exact absurd ⟨htop, hl1⟩ hno
      rw [if_pos hlv] at hd
      simp only [ht, Bool.false_eq_true, if_false] at hd
      norm_num at hd
      obtain ⟨-, hx⟩ := hd
      subst hx
      rfl
    · rw [if_neg hlv] at hd
      norm_num at hd
      obtain ⟨-, hx⟩ := hd
      subst hx
      rfl

/-- The state of C2's witness: an outermost enumerated list inside a
topic, about to close with a non-blank pending buffer. -/
def stE : JTState :=
  { initState cfg0 with
      bullets := ["1."],
      indents := [3],
      list_level := 1,
      in_topic := true,
      markdown_lines := ["x"] }

/-- The state after `depart_enumerated_list` leaves `stE`. -/
def stE2 : JTState :=
  { initState cfg0 with
      bullets := [],
      indents := [],
      list_level := 0,
      in_topic := true,
      markdown_lines := ["x", "\n\n"] }

/-- C2 witness: the amended flush discipline observed concretely — a
topic enumerated list closing at depth zero appends no cell, and a text
event appends no cell either. -/
theorem C2_flush_boundaries_witness :
    stE2.cells = stE.cells ∧ (visit_Text "x" (initState cfg0)).cells = (initState cfg0).cells :=
  ⟨(C2_flush_boundaries cfg0).2.2.2.2.2.1 stE stE2 (by decide),
   (C2_flush_boundaries cfg0).2.2.2.2.2.2.2 (JTEvent.text "x") (initState cfg0)
     (visit_Text "x" (initState cfg0)) rfl rfl⟩

/-! ## C3 -/

/-- Every cell in the stream carries at most one attached output. -/
def OutputsOK (cells : List NbCell) : Prop :=
  ∀ c ∈ cells, c.outputs.length ≤ 1

/-- The configured header cells each carry at most one output (trivially
true for `nbformat`-built header cells). -/
def HeadersWF (cfg : JTConfig) : Prop :=
  ∀ tbl, cfg.jupyter_headers = some tbl → ∀ p ∈ tbl, ∀ c ∈ p.2, c.outputs.length ≤ 1

theorem mem_insertIdx {c cell : NbCell} {l : List NbCell} {i : Nat}
    (h : c ∈ insertIdx l i cell) : c = cell ∨ c ∈ l := by
  unfold insertIdx at h
  rcases List.mem_append.mp h with h1 | h2
  · rcases List.mem_append.mp h1 with ha | hb
    · exact Or.inr (List.take_subset _ _ ha)
    · simp only [List.mem_singleton] at hb
      exact Or.inl hb
  · exact Or.inr (List.drop_subset _ _ h2)

theorem mem_foldl_insertIdx : ∀ (hs l : List NbCell) (pos : Nat) (c : NbCell),
    c ∈ List.foldl (fun cs h => insertIdx cs pos h) l hs → c ∈ hs ∨ c ∈ l
  | [], _, _, _, h => Or.inr h
  | hd :: t, l, pos, c, h => by
    rcases mem_foldl_insertIdx t (insertIdx l pos hd) pos c h with h1 | h2
    · exact Or.inl (List.mem_cons_of_mem _ h1)
    · rcases mem_insertIdx h2 with h3 | h4
      · exact Or.inl (h3 ▸ List.mem_cons_self _ _)
      · exact Or.inr h4

theorem mem_insert_headers (c : NbCell) (l : List NbCell) (pos : Nat) (hs : List NbCell)
    (h : c ∈ insert_headers l pos hs) : c ∈ hs ∨ c ∈ l := by
  rcases mem_foldl_insertIdx hs.reverse l pos c h with h1 | h2
  · exact Or.inl (List.mem_reverse.mp h1)
  · exact Or.inr h2

theorem OutputsOK_add_markdown_cell (st : JTState) (h : OutputsOK st.cells) :
    OutputsOK (add_markdown_cell st).cells := by
  by_cases hb : 0 < (pyStrip (strip_blank_lines_in_end_of_block (pyJoin st.markdown_lines))).length
  · simp only [add_markdown_cell, if_pos hb]
    intro c hc
    rcases List.mem_append.mp hc with h1 | h2
    · exact h c h1
    · simp only [List.mem_singleton] at h2
      subst h2
      simp [markdownCell]
  · simp only [add_markdown_cell, if_neg hb]
    exact h

theorem lang_fallback_cells (st : JTState) : (lang_fallback st).cells = st.cells := by
  simp only [lang_fallback]; split <;> rfl

theorem OutputsOK_apply_headers (cfg : JTConfig) (st : JTState) (hw : HeadersWF cfg)
    (h : OutputsOK st.cells) : OutputsOK (apply_headers cfg st).cells := by
  cases hH : cfg.jupyter_headers with
  | none => simpa [apply_headers, hH] using h
  | some tbl =>
    cases hL : List.lookup st.lang tbl with
    | none => simpa [apply_headers, hH, hL] using h
    | some hs =>
      simp only [apply_headers, hH, hL]
      intro c hc
      rcases mem_insert_headers c _ _ _ hc with h1 | h2
      · exact hw tbl hH (st.lang, hs) (lookup_mem tbl st.lang hs hL) c h1
      · exact h c h2

theorem OutputsOK_depart_literal_block (st st2 : JTState)
    (hd : depart_literal_block st = some st2) (h : OutputsOK st.cells) :
    OutputsOK st2.cells := by
  cases hog : st.output_cell_type with
  | none => simp [depart_literal_block, hog] at hd
  | some g =>
    cases g with
    | CODE =>
      simp only [depart_literal_block, hog, Option.some.injEq] at hd
      subst hd
      intro c hc
      rcases List.mem_append.mp hc with h1 | h2
      · exact h c h1
      · simp only [List.mem_singleton] at h2
        subst h2
        simp [codeCell]
    | MARKDOWN =>
      simp only [depart_literal_block, hog, Option.some.injEq] at hd
      subst hd
      intro c hc
      rcases List.mem_append.mp hc with h1 | h2
      · exact h c h1
      · simp only [List.mem_singleton] at h2
        subst h2
        simp [markdownCell]
    | CODE_OUTPUT =>
      simp only [depart_literal_block, hog] at hd
      cases hlast : st.cells.getLast? with
      | none =>
        simp only [hlast] at hd
        exact Option.noConfusion hd
      | some c =>
        simp only [hlast] at hd
        by_cases hct : c.cell_type ≠ CellKind.code
        · simp only [if_pos hct, Option.some.injEq] at hd
          subst hd
          exact h
        · simp only [if_neg hct] at hd
          by_cases ho : c.outputs ≠ []
          · simp only [if_pos ho, Option.some.injEq] at hd
            subst hd
            exact h
          · simp only [if_neg ho, Option.some.injEq] at hd
            subst hd
            have ho2 : c.outputs = [] := not_not.mp ho
            intro x hx
            rcases List.mem_append.mp hx with h1 | h2
            · exact h x (List.dropLast_subset _ h1)
            · simp only [List.mem_singleton] at h2
              subst h2
              simp [ho2]

theorem OutputsOK_step (cfg : JTConfig) (e : JTEvent) (st st2 : JTState)
    (hw : HeadersWF cfg) (hd : jt_step cfg e st = some st2) (h : OutputsOK st.cells) :
    OutputsOK st2.cells := by
  cases e
  case visitTitle =>
    simp only [jt_step, Option.some.injEq] at hd
    subst hd
    rw [OutputsOK, visit_title_cells]
    exact OutputsOK_add_markdown_cell st h
  case visitLiteral node =>
    simp only [jt_step, Option.some.injEq] at hd
    subst hd
    rw [OutputsOK, visit_literal_block_cells]
    exact OutputsOK_add_markdown_cell st h
  case departDoc =>
    simp only [jt_step, depart_document, depart_document_code] at hd
    rw [OutputsOK, apply_kernels_cells cfg _ _ hd]
    apply OutputsOK_apply_headers cfg _ hw
    rw [OutputsOK, lang_fallback_cells]
    exact OutputsOK_add_markdown_cell st h
  case departBullet =>
    simp only [jt_step] at hd
    rcases depart_bullet_list_cells st st2 hd with hc | hc
    · rw [OutputsOK, hc]
      exact h
    · rw [OutputsOK, hc]
      exact OutputsOK_add_markdown_cell _ h
  case departLiteral =>
    simp only [jt_step] at hd
    exact OutputsOK_depart_literal_block st st2 hd h
  all_goals
    rw [OutputsOK, jt_step_cells_nonflush cfg _ st st2 hd rfl]
  all_goals exact h

theorem OutputsOK_runFrom (cfg : JTConfig) (hw : HeadersWF cfg) :
    ∀ (evs : List JTEvent) (st st2 : JTState), runFrom cfg st evs = some st2 →
      OutputsOK st.cells → OutputsOK st2.cells
  | [], st, st2, h, hOK => by
    simp only [runFrom, Option.some.injEq] at h
    subst h
    exact hOK
  | e :: es, st, st2, h, hOK => by
    simp only [runFrom] at h
    cases hs : jt_step cfg e st with
    | none => rw [hs] at h; exact Option.noConfusion h
    | some st1 =>
      rw [hs] at h
      exact OutputsOK_runFrom cfg hw es st1 st2 h (OutputsOK_step cfg e st st1 hw hs hOK)

theorem OutputsOK_initState (cfg : JTConfig) : OutputsOK (initState cfg).cells := by
  intro c hc
  simp only [initState, initial_cells] at hc
  rcases List.mem_append.mp hc with h1 | h2
  · cases hcw : cfg.welcome with
    | none => simp [hcw] at h1
    | some t =>
      simp only [hcw, List.mem_singleton] at h1
      subst h1
      simp [markdownCell]
  · by_cases hm : cfg.jupyter_write_metadata = true
    · simp only [hm] at h2
      simp only [if_true, List.mem_singleton] at h2
      subst h2
      simp [metadataCell, markdownCell]
    · simp [hm] at h2

/-- C3: every code cell in the final cell stream carries at most one
attached output, and exiting an output-capture block whose most recent
cell is not a code cell, or already has an output, discards the output
with a warning — locally and without raising. -/
theorem C3_output_attachment (cfg : JTConfig) :
    (∀ evs st, HeadersWF cfg → jt_run cfg evs = some st →
      ∀ c ∈ st.cells, c.outputs.length ≤ 1) ∧
    (∀ st c, st.output_cell_type = some OutputGen.CODE_OUTPUT →
      st.cells.getLast? = some c →
      (c.cell_type ≠ CellKind.code ∨ c.outputs ≠ []) →
      ∃ st2, depart_literal_block st = some st2 ∧ st2.cells = st.cells ∧
        st2.warnings.length = st.warnings.length + 1 ∧ st2.in_code_block = false) := by
  constructor
  · intro evs st hw hrun
    exact OutputsOK_runFrom cfg hw evs _ st hrun (OutputsOK_initState cfg)
  · intro st c hog hlast hbad
    by_cases hct : c.cell_type ≠ CellKind.code
    · refine ⟨{ st with warnings := st.warnings ++ ["output after non-code cell"], in_code_block := false }, ?_, rfl, by simp, rfl⟩
      simp only [depart_literal_block, hog, hlast, if_pos hct]
    · have ho : c.outputs ≠ [] := by
        rcases hbad with hb | hb
        · exact absurd hb hct
        · exact hb
      refine ⟨{ st with warnings := st.warnings ++ ["multiple output blocks"], in_code_block := false }, ?_, rfl, by simp, rfl⟩
      simp only [depart_literal_block, hog, hlast, if_neg hct, if_pos ho]

/-- The final state of C3's witness run: one code cell produced from a
native `python3` block. -/
def stC3 : JTState where
  lang := "python3"
  nodelang := "python3"
  in_code_block := false
  output_cell_type := some OutputGen.CODE
  code_lines := ["x"]
  markdown_lines := []
  indents := []
  section_level := 0
  bullets := []
  list_item_starts := []
  in_topic := false
  reference_text_start := 0
  in_reference := false
  list_level := 0
  in_citation := false
  cells := [codeCell "x"]
  warnings := []
  errors := []
  kernelspec := none

/-- The anomalous state of C3's witness: an output-capture block closing
while the most recent cell is a markdown cell. -/
def stBad : JTState :=
  { initState cfg0 with
      output_cell_type := some OutputGen.CODE_OUTPUT,
      cells := [markdownCell "m"] }

/-- C3 witness: the invariant on a concrete run, and the warned
non-fatal discard at a concrete anomalous state. -/
theorem C3_output_attachment_witness :
    (∀ c ∈ stC3.cells, c.outputs.length ≤ 1) ∧
    (∃ st2, depart_literal_block stBad = some st2 ∧ st2.cells = stBad.cells ∧
      st2.warnings.length = stBad.warnings.length + 1 ∧ st2.in_code_block = false) :=
  ⟨(C3_output_attachment cfg0).1
      [JTEvent.visitDoc, JTEvent.visitLiteral { classes := [], language := none },
        JTEvent.text "x", JTEvent.departLiteral] stC3
      (by intro tbl h; simp [cfg0] at h) (by decide),
   (C3_output_attachment cfg0).2 stBad (markdownCell "m") rfl rfl
      (Or.inl (by decide))⟩

/-! ## C7 -/

/-- C7 counterexample: a whitespace-only text fragment appended to the
markdown buffer appears in no emitted cell — the final flush strips it
to nothing and the conversion ends with an empty cell stream — so a
fragment can be lost, contrary to the claim's exactly-once rule. -/
theorem C7_counterexample :
    (jt_run cfg0 [JTEvent.visitDoc, JTEvent.text " "]).map JTState.markdown_lines =
      some [" "] ∧
    (jt_run cfg0 [JTEvent.visitDoc, JTEvent.text " ", JTEvent.departDoc]).map
      JTState.cells = some [] :=
  ⟨by decide, by decide⟩

theorem mem_insertIdx_of_mem {c cell : NbCell} {l : List NbCell} {i : Nat}
    (h : c ∈ l) : c ∈ insertIdx l i cell := by
  unfold insertIdx
  rw [← List.take_append_drop i l] at h
  rcases List.mem_append.mp h with h1 | h2
  · exact List.mem_append.mpr (Or.inl (List.mem_append.mpr (Or.inl h1)))
  · exact List.mem_append.mpr (Or.inr h2)

theorem mem_foldl_insertIdx_of_mem : ∀ (hs l : List NbCell) (pos : Nat) (c : NbCell),
    c ∈ l → c ∈ List.foldl (fun cs h => insertIdx cs pos h) l hs
  | [], _, _, _, h => h
  | _ :: t, _, pos, c, h => mem_foldl_insertIdx_of_mem t _ pos c (mem_insertIdx_of_mem h)

theorem mem_insert_headers_of_mem (l : List NbCell) (pos : Nat) (hs : List NbCell)
    (c : NbCell) (h : c ∈ l) : c ∈ insert_headers l pos hs :=
  mem_foldl_insertIdx_of_mem hs.reverse l pos c h

theorem mem_cells_add_markdown_cell {c : NbCell} (st : JTState) (h : c ∈ st.cells) :
    c ∈ (add_markdown_cell st).cells := by
  by_cases hb : 0 < (pyStrip (strip_blank_lines_in_end_of_block (pyJoin st.markdown_lines))).length
  · simp only [add_markdown_cell, if_pos hb]
    exact List.mem_append.mpr (Or.inl h)
  · simp only [add_markdown_cell, if_neg hb]
    exact h

theorem mem_cells_apply_headers (cfg : JTConfig) (st : JTState) {c : NbCell}
    (h : c ∈ st.cells) : c ∈ (apply_headers cfg st).cells := by
  cases hH : cfg.jupyter_headers with
  | none => simpa [apply_headers, hH] using h
  | some tbl =>
    cases hL : List.lookup st.lang tbl with
    | none => simpa [apply_headers, hH, hL] using h
    | some hs =>
      simp only [apply_headers, hH, hL]
      exact mem_insert_headers_of_mem _ _ _ _ h

theorem mem_markdown_depart_literal_block (st st2 : JTState)
    (hd : depart_literal_block st = some st2) (c : NbCell) (hc : c ∈ st.cells)
    (hct : c.cell_type = CellKind.markdown) : c ∈ st2.cells := by
  cases hog : st.output_cell_type with
  | none => simp [depart_literal_block, hog] at hd
  | some g =>
    cases g with
    | CODE =>
      simp only [depart_literal_block, hog, Option.some.injEq] at hd
      subst hd
      exact List.mem_append.mpr (Or.inl hc)
    | MARKDOWN =>
      simp only [depart_literal_block, hog, Option.some.injEq] at hd
      subst hd
      exact List.mem_append.mpr (Or.inl hc)
    | CODE_OUTPUT =>
      simp only [depart_literal_block, hog] at hd
      cases hlast : st.cells.getLast? with
      | none =>
        simp only [hlast] at hd
        exact Option.noConfusion hd
      | some d =>
        simp only [hlast] at hd
        by_cases hdt : d.cell_type ≠ CellKind.code
        · simp only [if_pos hdt, Option.some.injEq] at hd
          subst hd
          exact hc
        · simp only [if_neg hdt] at hd
          by_cases ho : d.outputs ≠ []
          · simp only [if_pos ho, Option.some.injEq] at hd
            subst hd
            exact hc
          · simp only [if_neg ho, Option.some.injEq] at hd
            subst hd
            have hdc : d.cell_type = CellKind.code := not_not.mp hdt
            have hsplit : st.cells.dropLast ++ [d] = st.cells :=
              List.dropLast_append_getLast? d (Option.mem_def.mpr hlast)
            rw [← hsplit] at hc
            rcases List.mem_append.mp hc with h1 | h2
            · exact List.mem_append.mpr (Or.inl h1)
            · simp only [List.mem_singleton] at h2
              subst h2
              rw [hdc] at hct
              exact CellKind.noConfusion hct

/-- C7 (amended): a flush either emits exactly one markdown cell — its
body the trailing-blank-stripped join of the whole pending buffer — and
clears the buffer, or (when that body strips to whitespace) emits
nothing and leaves the state untouched; the cell produced at a native
code-block exit carries the stripped join of the code buffer and leaves
the markdown buffer alone; and once a markdown cell is in the stream, no
later step removes it.  Buffer content is thus never duplicated and
never reordered, but — contrary to the claim — it can be dropped:
trailing blank lines are stripped at each flush, and a buffer that
strips to whitespace at document end is emitted nowhere. -/
theorem C7_flush_accounting (cfg : JTConfig) :
    (∀ st, (pyStrip (strip_blank_lines_in_end_of_block (pyJoin st.markdown_lines)) = "" ∧
        add_markdown_cell st = st) ∨
      ((add_markdown_cell st).cells = st.cells ++
          [markdownCell (strip_blank_lines_in_end_of_block (pyJoin st.markdown_lines))] ∧
        (add_markdown_cell st).markdown_lines = [])) ∧
    (∀ st st2, st.output_cell_type = some OutputGen.CODE →
      depart_literal_block st = some st2 →
      st2.cells = st.cells ++
        [codeCell (strip_blank_lines_in_end_of_block (pyJoin st.code_lines))] ∧
      st2.markdown_lines = st.markdown_lines) ∧
    (∀ e st st2 c, jt_step cfg e st = some st2 → c ∈ st.cells →
      c.cell_type = CellKind.markdown → c ∈ st2.cells) := by
  refine ⟨?_, ?_, ?_⟩
  · intro st
    by_cases hb : 0 < (pyStrip (strip_blank_lines_in_end_of_block (pyJoin st.markdown_lines))).length
    · right
      constructor
      · simp only [add_markdown_cell, if_pos hb]
      · simp only [add_markdown_cell, if_pos hb]
    · left
      have hdata : (pyStrip (strip_blank_lines_in_end_of_block (pyJoin st.markdown_lines))).data = [] := by
        apply List.eq_nil_of_length_eq_zero
        have hlen : (pyStrip (strip_blank_lines_in_end_of_block (pyJoin st.markdown_lines))).length =
            (pyStrip (strip_blank_lines_in_end_of_block (pyJoin st.markdown_lines))).data.length := rfl
        omega
      refine ⟨String.ext (by rw [hdata, data_empty]), ?_⟩
      simp only [add_markdown_cell, if_neg hb]
  · intro st st2 hog hd
    simp only [depart_literal_block, hog, Option.some.injEq] at hd
    subst hd
    exact ⟨rfl, rfl⟩
  · intro e st st2 c hd hc hct
    cases e
    case visitTitle =>
      simp only [jt_step, Option.some.injEq] at hd
      subst hd
      rw [visit_title_cells]
      exact mem_cells_add_markdown_cell st hc
    case visitLiteral node =>
      simp only [jt_step, Option.some.injEq] at hd
      subst hd
      rw [visit_literal_block_cells]
      exact mem_cells_add_markdown_cell st hc
    case departDoc =>
      simp only [jt_step, depart_document, depart_document_code] at hd
      rw [apply_kernels_cells cfg _ _ hd]
      apply mem_cells_apply_headers
      rw [lang_fallback_cells]
      exact mem_cells_add_markdown_cell st hc
    case departBullet =>
      simp only [jt_step] at hd
      rcases depart_bullet_list_cells st st2 hd with hcc | hcc
      · rw [hcc]; exact hc
      · rw [hcc]; exact mem_cells_add_markdown_cell _ hc
    case departLiteral =>
      simp only [jt_step] at hd
      exact mem_markdown_depart_literal_block st st2 hd c hc hct
    all_goals rw [jt_step_cells_nonflush cfg _ st st2 hd rfl]
    all_goals exact hc

/-- The state of C7's witness: a markdown cell already in the stream
when a text fragment arrives. -/
def stM7 : JTState :=
  { initState cfg0 with cells := [markdownCell "m"] }

/-- C7 witness: an already-emitted markdown cell persists through a
later step. -/
theorem C7_flush_accounting_witness :
    markdownCell "m" ∈ (visit_Text "y" stM7).cells :=
  (C7_flush_accounting cfg0).2.2 (JTEvent.text "y") stM7 (visit_Text "y" stM7)
    (markdownCell "m") rfl (by decide) rfl
